import Mathlib

/-!
# Verification of the OpenTasker task-manager core

Shallow embedding of the Python sources of the OpenTasker repository:

* `scripts/tasks.py` — task store (`update_status`, `extend_deadline`, archival helpers)
* `scripts/reminders.py` — deadline reconciliation (`check_overdue`)
* `scripts/resolve_user.py` — user directory (`upsert_user`, `search_user`)
* `scripts/menu.py` — callback-token router (`cmd_route` and the view commands)
* `scripts/weekly_review.py` — archival sweep inside `generate_weekly_review`

Modelling conventions:

* The SQLite `tasks` / `users` tables are modelled as `List Task` / `List User`;
  a `SELECT ... WHERE id = ?` picking one row is `List.find?` (first matching
  row), and `UPDATE ... WHERE` is a `List.map` rewriting the matching rows.
* Timestamps produced by the system itself (`now_iso()`, `datetime('now')`)
  are uniform offset-naive ISO-8601 strings at second precision; they are
  embedded as integers (seconds).  The current time is an explicit parameter
  wherever the Python calls `now_iso()` / `datetime('now')`.
* `deadline` values are arbitrary caller-supplied ISO strings.  They are
  embedded as `IsoTime`: the encoded instant (an integer) together with a
  flag recording whether the string carries a UTC offset, because
  `datetime.fromisoformat` yields an offset-aware datetime exactly when the
  string carries an offset, and `datetime.now(UTC) - naive` raises
  `TypeError` in Python.  Lexicographic comparison of ISO strings is
  embedded as comparison of the encoded instants.
* Python exceptions are embedded as `Except` errors; fallible SQL lookups as
  `Option`; floating-point divisions (`total_seconds()/3600`) as exact
  rationals (display rounding `round(x, k)` is dropped, it feeds no logic).
* Python `str` values are embedded as `List Char` where character-level
  operations matter (router tokens, user search), and as `String` where the
  value is only stored and compared.
-/

namespace OpenTasker

/-- Task status enumeration, `CHECK(status IN ...)` in `init_db.py`. -/
inductive Status where
  | todo
  | in_progress
  | done
  | cancelled
  | overdue
deriving DecidableEq, Repr

/-- An ISO-8601 timestamp string as parsed by `datetime.fromisoformat`:
`t` is the encoded instant in seconds, `aware` records whether the string
carries a UTC offset (offset-aware when parsed). -/
structure IsoTime where
  t : Int
  aware : Bool
deriving DecidableEq, Repr

/-- A row of the `tasks` table (`init_db.py`), JSON columns parsed as in
`task_row_to_dict`. -/
structure Task where
  id : Int
  description : String
  title : Option String
  creatorId : Int
  creatorUsername : Option String
  assigneeId : Option Int
  assigneeUsername : Option String
  chatId : Int
  deadline : Option IsoTime
  priority : String
  status : Status
  cronJobIds : List Int
  createdAt : Int
  updatedAt : Int
  completedAt : Option Int
deriving DecidableEq, Repr

/-- `SELECT * FROM tasks WHERE id = ?` fetching one row. -/
def findTask (db : List Task) (taskId : Int) : Option Task :=
  db.find? (fun t => t.id = taskId)

/-- `UPDATE tasks SET ... WHERE id = ?`: rewrite every row with that id. -/
def setTask (db : List Task) (taskId : Int) (updated : Task) : List Task :=
  db.map (fun t => if t.id = taskId then updated else t)

/-- Result dictionary of `tasks.py: update_status`. -/
inductive UpdateResult where
  /-- `{"error": "Task #<id> not found"}` -/
  | notFound
  /-- early return `{"status": "ok", "task": task, "message": "Task already has status ..."}`;
  the row is not touched. -/
  | alreadyHasStatus (task : Task)
  /-- `{"status": "ok", "task": updated, "old_status": ..., "new_status": ...}`,
  with `cron_jobs_to_remove` present iff the new status is done/cancelled. -/
  | ok (task : Task) (oldStatus newStatus : Status) (cronJobsToRemove : Option (List Int))
deriving DecidableEq, Repr

/-- `tasks.py: update_status` (lines 173–215).  `now` stands for both
`now_iso()` (used for `completed_at`) and `datetime('now')` (used for
`updated_at`), which the source evaluates in the same call. -/
def update_status (db : List Task) (taskId : Int) (newStatus : Status) (now : Int) :
    List Task × UpdateResult :=
  match findTask db taskId with
  | none => (db, .notFound)
  | some task =>
    if task.status = newStatus then
      (db, .alreadyHasStatus task)
    else
      let completedAt := if newStatus = .done then some now else task.completedAt
      let updated := { task with
        status := newStatus
        updatedAt := now
        completedAt := completedAt }
      let cron := if newStatus = .done ∨ newStatus = .cancelled then
          some task.cronJobIds
        else none
      (setTask db taskId updated, .ok updated task.status newStatus cron)

/-- Result dictionary of `tasks.py: extend_deadline`. -/
inductive ExtendResult where
  /-- `{"error": "Task #<id> not found"}` -/
  | notFound
  /-- `{"status": "ok", "task": ..., "old_deadline": ..., "new_deadline": ...,
  "old_cron_jobs_to_remove": ...}` -/
  | ok (task : Task) (oldDeadline : Option IsoTime) (newDeadline : IsoTime)
      (oldCronJobsToRemove : List Int)
deriving DecidableEq, Repr

/-- `tasks.py: extend_deadline` (lines 220–256). -/
def extend_deadline (db : List Task) (taskId : Int) (newDeadline : IsoTime) (now : Int) :
    List Task × ExtendResult :=
  match findTask db taskId with
  | none => (db, .notFound)
  | some task =>
    let newStatus := if task.status = .overdue then Status.todo else task.status
    let updated := { task with
      deadline := some newDeadline
      status := newStatus
      updatedAt := now }
    (setTask db taskId updated, .ok updated task.deadline newDeadline task.cronJobIds)

/-! ## Deadline reconciliation — `scripts/reminders.py` -/

/-- Selection predicate of `reminders.py: check_overdue` (lines 45–56):
`deadline IS NOT NULL AND deadline < now AND status IN ('todo','in_progress')`,
plus `chat_id = ?` when a chat filter is given.  The SQL compares the ISO
strings lexicographically, which for timestamps agrees with comparing the
encoded instants. -/
def overdueSel (now : Int) (chatId : Option Int) (t : Task) : Prop :=
  (∃ d, t.deadline = some d ∧ d.t < now) ∧
    (t.status = .todo ∨ t.status = .in_progress) ∧
    (∀ c, chatId = some c → t.chatId = c)

instance (now : Int) (chatId : Option Int) (t : Task) : Decidable (overdueSel now chatId t) := by
  unfold overdueSel
  infer_instance

/-- Notification record appended by the loop at `reminders.py` lines 72–91. -/
structure OverdueNotification where
  taskId : Int
  description : String
  title : Option String
  assigneeUsername : Option String
  assigneeId : Option Int
  deadline : Option IsoTime
  /-- `delta.total_seconds() / 3600`, exact (the source additionally rounds
  the float to one decimal for display). -/
  hoursOverdue : ℚ
  priority : String
  chatId : Int
deriving DecidableEq, Repr

/-- Errors raised by the embedded Python code. -/
inductive PyError where
  /-- `TypeError: can't subtract offset-naive and offset-aware datetimes`,
  raised by `datetime.now(UTC) - deadline_dt` when `deadline_dt` is naive. -/
  | typeError
deriving DecidableEq, Repr

/-- One iteration of the notification loop of `check_overdue` (lines 73–91):
parse the deadline, subtract it from `datetime.now(UTC)` (instant `now2`).
Python raises `TypeError` when the parsed deadline is offset-naive, because
`datetime.now(UTC)` is offset-aware. -/
def mkOverdueNotification (now2 : Int) (t : Task) : Except PyError OverdueNotification :=
  match t.deadline with
  | none =>
    .ok { taskId := t.id, description := t.description, title := t.title,
          assigneeUsername := t.assigneeUsername, assigneeId := t.assigneeId,
          deadline := t.deadline, hoursOverdue := 0,
          priority := t.priority, chatId := t.chatId }
  | some d =>
    if d.aware then
      .ok { taskId := t.id, description := t.description, title := t.title,
            assigneeUsername := t.assigneeUsername, assigneeId := t.assigneeId,
            deadline := t.deadline, hoursOverdue := (now2 - d.t : ℚ) / 3600,
            priority := t.priority, chatId := t.chatId }
    else
      .error .typeError

/-- `reminders.py: check_overdue` (lines 36–97).  `now` is the `now_iso()`
instant used for the selection and the `datetime('now')` of the UPDATE;
`now2` is the instant of the later `datetime.now(UTC)` call inside the
notification loop (`now ≤ now2` in any real execution).  Returns the updated
table, the selected (newly overdue) rows, and the notification list — the
latter as `Except` because the loop can raise before returning the result
dictionary (whose `tasks` field is the notification list and whose
`newly_overdue_count` is its length). -/
def check_overdue (db : List Task) (chatId : Option Int) (now now2 : Int) :
    List Task × List Task × Except PyError (List OverdueNotification) :=
  let newlyOverdue := db.filter (fun t => decide (overdueSel now chatId t))
  let ids := newlyOverdue.map (·.id)
  let db' :=
    if newlyOverdue.isEmpty then db
    else db.map (fun t =>
      if ids.contains t.id then { t with status := .overdue, updatedAt := now } else t)
  (db', newlyOverdue, newlyOverdue.mapM (mkOverdueNotification now2))

/-! ## Archival sweep — `scripts/weekly_review.py` -/

/-- Deletion predicate of the archive step in
`weekly_review.py: generate_weekly_review` (lines 110–130):
`chat_id = ? AND status IN ('done','cancelled') AND updated_at < two_weeks_ago`. -/
def archiveSel (chatId : Int) (twoWeeksAgo : Int) (t : Task) : Prop :=
  t.chatId = chatId ∧ (t.status = .done ∨ t.status = .cancelled) ∧
    t.updatedAt < twoWeeksAgo

instance (chatId twoWeeksAgo : Int) (t : Task) :
    Decidable (archiveSel chatId twoWeeksAgo t) := by
  unfold archiveSel
  infer_instance

/-- `two_weeks_ago = datetime.now(UTC) - timedelta(days=14)`
(`weekly_review.py` line 38): the retention cutoff. -/
def retentionCutoff (now : Int) : Int := now - 14 * 86400

/-- The archive step of `weekly_review.py: generate_weekly_review`
(lines 110–130): count the matching rows and, when the `--archive` flag is
set and the count is positive, `DELETE` them.  `now` is `datetime.now(UTC)`;
the cutoff is `now - timedelta(days=14)`.  Returns the resulting table and
`archived_count`.  The surrounding report formatting reads but never writes
the table and is omitted. -/
def weeklyArchive (db : List Task) (chatId : Int) (archive : Bool) (now : Int) :
    List Task × Nat :=
  let twoWeeksAgo := retentionCutoff now
  if archive then
    let cnt := (db.filter (fun t => decide (archiveSel chatId twoWeeksAgo t))).length
    if cnt > 0 then
      (db.filter (fun t => !decide (archiveSel chatId twoWeeksAgo t)), cnt)
    else (db, cnt)
  else (db, 0)

/-! ## User directory — `scripts/resolve_user.py` -/

/-- A row of the `users` table (`init_db.py`), `chat_ids` parsed as in
`user_row_to_dict`. -/
structure User where
  telegramId : Int
  username : Option String
  firstName : Option String
  lastName : Option String
  displayName : Option String
  chatIds : List Int
  firstSeenAt : Int
  lastSeenAt : Int
deriving DecidableEq, Repr

/-- SQL `COALESCE(?, col)`: the bound parameter replaces the column unless it
is NULL (Python `None`).  An empty string is not NULL and replaces the
column. -/
def coalesce (param : Option String) (col : Option String) : Option String :=
  match param with
  | some v => some v
  | none => col

/-- `SELECT ... FROM users WHERE telegram_id = ?`. -/
def findUser (udb : List User) (telegramId : Int) : Option User :=
  udb.find? (fun u => u.telegramId = telegramId)

/-- `resolve_user.py: upsert_user` (lines 47–87).  `now` is the
`datetime('now')` of the UPDATE and, for the INSERT branch, the
`DEFAULT (datetime('now'))` of `first_seen_at` / `last_seen_at` in the
schema.  The Python truthiness test `if chat_id` is modelled by an `Option`
chat id (`none` for `None`). -/
def upsert_user (udb : List User) (telegramId : Int)
    (username firstName lastName : Option String) (chatId : Option Int) (now : Int) :
    List User × User :=
  match findUser udb telegramId with
  | some u =>
    let chatIds := match chatId with
      | some c => if c ∈ u.chatIds then u.chatIds else u.chatIds ++ [c]
      | none => u.chatIds
    let u' := { u with
      username := coalesce username u.username
      firstName := coalesce firstName u.firstName
      lastName := coalesce lastName u.lastName
      chatIds := chatIds
      lastSeenAt := now }
    (udb.map (fun x => if x.telegramId = telegramId then u' else x), u')
  | none =>
    let u' : User := {
      telegramId := telegramId
      username := username
      firstName := firstName
      lastName := lastName
      displayName := none
      chatIds := match chatId with | some c => [c] | none => []
      firstSeenAt := now
      lastSeenAt := now }
    (udb ++ [u'], u')

/-! ### Fuzzy matching — `difflib.SequenceMatcher.ratio`

`search_user` scores candidates with
`difflib.SequenceMatcher(None, a, b).ratio()`.  With no junk (`None`) and for
the short strings involved (autojunk only kicks in at `len(b) >= 200`,
modelled for strings below that bound), `ratio` is `2*M/(len a + len b)`
where `M` is the total size of the matching blocks: recursively take the
longest contiguous common block — ties resolved to the earliest start in `a`,
then the earliest start in `b` — and recurse on the pieces to its left and to
its right. -/

/-- Length of the longest common prefix of two character lists. -/
def commonPrefixLen : List Char → List Char → Nat
  | a :: as, b :: bs => if a = b then commonPrefixLen as bs + 1 else 0
  | _, _ => 0

/-- `SequenceMatcher.find_longest_match` on full windows, without junk:
the triple `(i, j, k)` with maximal `k` such that `a[i:i+k] = b[j:j+k]`,
preferring the smallest `i` and then the smallest `j`. -/
def findLongestMatch (a b : List Char) : Nat × Nat × Nat :=
  (List.range (a.length + 1)).foldl (fun acc i =>
    (List.range (b.length + 1)).foldl (fun acc2 j =>
      let k := commonPrefixLen (a.drop i) (b.drop j)
      if k > acc2.2.2 then (i, j, k) else acc2) acc) (0, 0, 0)

/-- Total size of the matching blocks of `SequenceMatcher.get_matching_blocks`
(fuel-driven recursion on the window split induced by the longest match; the
fuel in `matchTotal` is always sufficient because each recursive window is
strictly shorter in `a`). -/
def matchTotalAux : Nat → List Char → List Char → Nat
  | 0, _, _ => 0
  | fuel + 1, a, b =>
    let m := findLongestMatch a b
    let i := m.1
    let j := m.2.1
    let k := m.2.2
    if k = 0 then 0
    else
      matchTotalAux fuel (a.take i) (b.take j) + k +
        matchTotalAux fuel (a.drop (i + k)) (b.drop (j + k))

/-- Total matched size for two full strings. -/
def matchTotal (a b : List Char) : Nat :=
  matchTotalAux (a.length + b.length + 1) a b

/-- `SequenceMatcher(None, a, b).ratio()`: `2*M/T` with
`T = len a + len b`, and `1.0` when both strings are empty. -/
def seqRatio (a b : List Char) : ℚ :=
  let total := a.length + b.length
  if total = 0 then 1 else (2 * matchTotal a b : ℚ) / total

/-! ### Fuzzy user search — `resolve_user.py: search_user` -/

/-- ASCII lowering, the effect of Python `str.lower()` / SQLite `LOWER` on
the ASCII strings involved. -/
def lowerChar (c : Char) : Char :=
  if 'A' ≤ c ∧ c ≤ 'Z' then Char.ofNat (c.toNat + 32) else c

/-- Lowercase a character list. -/
def lowerStr (s : List Char) : List Char := s.map lowerChar

/-- Python `str.strip()`: drop whitespace from both ends. -/
def stripWs (s : List Char) : List Char :=
  ((s.dropWhile Char.isWhitespace).reverse.dropWhile Char.isWhitespace).reverse

/-- `query.lower().strip().lstrip("@")` (`search_user` line 95). -/
def normQuery (q : List Char) : List Char :=
  (stripWs (lowerStr q)).dropWhile (fun c => c = '@')

/-- Default fuzzy threshold (`resolve_user.py` line 16); `get_config` falls
back to it when the config file is absent, the configuration modelled here. -/
def fuzzyThreshold : ℚ := 6 / 10

/-- Default suggestion cap (`resolve_user.py` line 17). -/
def maxSuggestions : Nat := 5

/-- Candidate strings of one user (`search_user` lines 131–141): username,
first name, last name, "first last", display name — each lowercased and only
when non-empty (Python truthiness of `user.get(...)`). -/
def userCandidates (u : User) : List (List Char) :=
  (match u.username with
    | some s => if s ≠ "" then [lowerStr s.toList] else []
    | none => []) ++
  (match u.firstName with
    | some s => if s ≠ "" then [lowerStr s.toList] else []
    | none => []) ++
  (match u.lastName with
    | some s => if s ≠ "" then [lowerStr s.toList] else []
    | none => []) ++
  (match u.firstName, u.lastName with
    | some f, some l =>
      if f ≠ "" ∧ l ≠ "" then [lowerStr (f.toList ++ ' ' :: l.toList)] else []
    | _, _ => []) ++
  (match u.displayName with
    | some s => if s ≠ "" then [lowerStr s.toList] else []
    | none => [])

/-- `best_score` of one user (`search_user` lines 143–147): maximum
`SequenceMatcher` ratio of the normalized query against the candidate
strings, starting from `0.0`. -/
def bestScore (q : List Char) (u : User) : ℚ :=
  (userCandidates u).foldl (fun best c => max best (seqRatio q c)) 0

/-- Stable descending insertion by score: the Python
`scored.sort(key=lambda x: x[0], reverse=True)` is a stable sort by the
score component, which any stable descending sort reproduces. -/
def insertByScore (x : ℚ × User) : List (ℚ × User) → List (ℚ × User)
  | [] => [x]
  | y :: ys => if y.1 > x.1 then y :: insertByScore x ys else x :: y :: ys

/-- Stable sort of the scored list, descending by score. -/
def sortByScoreDesc : List (ℚ × User) → List (ℚ × User)
  | [] => []
  | x :: xs => insertByScore x (sortByScoreDesc xs)

/-- Result of `search_user`: the three-way contract.  A suggestion carries
its `match_score` (exact; the source rounds it to three decimals for
display). -/
inductive SearchResult where
  | exactMatch (user : User)
  | suggestions (users : List (User × ℚ))
  | notFound
deriving DecidableEq, Repr

/-- Exact username lookup (`search_user` lines 98–101):
`SELECT * FROM users WHERE LOWER(username) = ?` — first matching row;
a NULL username never matches. -/
def findExact (udb : List User) (q : List Char) : Option User :=
  udb.find? (fun u =>
    match u.username with
    | some s => lowerStr s.toList = q
    | none => false)

/-- The exact-match step of `search_user` (lines 97–106): an exact
case-insensitive username hit short-circuits to `EXACT_MATCH` when no chat
filter is given or the user's `chat_ids` contains the scope; otherwise the
fuzzy stage runs. -/
def exactLookup (udb : List User) (queryLower : List Char) (chatId : Option Int) :
    Option SearchResult :=
  match findExact udb queryLower with
  | some u =>
    if chatId = none ∨ ∃ c, chatId = some c ∧ c ∈ u.chatIds then
      some (.exactMatch u)
    else none
  | none => none

/-- The fuzzy candidate set of `search_user` (lines 108–118): all users,
filtered to the chat scope when one is given. -/
def fuzzyCandidates (udb : List User) (chatId : Option Int) : List User :=
  match chatId with
  | some c => udb.filter (fun u => c ∈ User.chatIds u)
  | none => udb

/-- `resolve_user.py: search_user` (lines 90–163), with the default
configuration. -/
def search_user (udb : List User) (query : List Char) (chatId : Option Int) :
    SearchResult :=
  match exactLookup udb (normQuery query) chatId with
  | some r => r
  | none =>
    let allUsers := fuzzyCandidates udb chatId
    if allUsers.isEmpty then .notFound
    else
      let scored := (allUsers.filterMap (fun u =>
        if bestScore (normQuery query) u ≥ fuzzyThreshold then
          some (bestScore (normQuery query) u, u)
        else none))
      let scored := sortByScoreDesc scored
      match scored with
      | [] => .notFound
      | top :: _ =>
        if top.1 ≥ 95 / 100 then .exactMatch top.2
        else
          .suggestions ((scored.take maxSuggestions).map
            (fun (p : ℚ × User) => (p.2, p.1)))

/-! ## Callback router — `scripts/menu.py`

Callback tokens and `callback_data` strings are embedded as `List Char`.
Message display text (the Russian UI strings) is abstracted to a tag
recording which text the command renders; button labels are abstracted away,
a button being its `callback_data` token.  `send_message`/Telegram delivery
is external: a command's value is the response payload it sends. -/

/-- A callback token. -/
abbrev Tok := List Char

/-- Python `str.startswith(prefix)` on character lists (recursion on the
prefix, which is always a literal in the router). -/
def startsWithTok : List Char → List Char → Bool
  | [], _ => true
  | a :: ps, s =>
    match s with
    | [] => false
    | b :: ss => (a = b) && startsWithTok ps ss

/-- Python `int(s)` on a decimal string: optional surrounding whitespace,
optional sign, then digits with single underscores allowed only between
digits; `None` when `int` raises `ValueError` (ASCII model). -/
def pyIntDigitsTail : List Char → Bool
  | [] => true
  | '_' :: c :: rest => c.isDigit && pyIntDigitsTail rest
  | '_' :: [] => false
  | c :: rest => c.isDigit && pyIntDigitsTail rest

/-- Digit-run validity for Python `int`: nonempty, starts with a digit. -/
def pyIntDigitsOk : List Char → Bool
  | [] => false
  | c :: rest => c.isDigit && pyIntDigitsTail rest

/-- Numeric value of a valid digit run (underscores skipped). -/
def pyIntVal (ds : List Char) : Int :=
  (ds.filter (fun c => c ≠ '_')).foldl (fun a c => a * 10 + (c.toNat - 48 : Int)) 0

/-- `int(s)` as an `Option`. -/
def pyInt? (s : List Char) : Option Int :=
  let cs := stripWs s
  match cs with
  | '+' :: r => if pyIntDigitsOk r then some (pyIntVal r) else none
  | '-' :: r => if pyIntDigitsOk r then some (-(pyIntVal r)) else none
  | r => if pyIntDigitsOk r then some (pyIntVal r) else none

/-- Which display text a menu command renders (UI strings abstracted). -/
inductive MsgText where
  | mainMenu
  | createPrompt
  | noUserId
  | myTasksEmpty
  | myTasksList (taskIds : List Int)
  | allTasksEmpty
  | allTasksList (taskIds : List Int)
  | taskNotFound (taskId : Int)
  | taskDetail (taskId : Int)
  | actionError
  | statsView
  | overdueEmpty
  | overdueList (taskIds : List Int)
  | vizMenu
  | chartResult (chart : Tok)
  | editPrompt (suffix : Tok)
  | extendPrompt (suffix : Tok)
  | unknownCommand (cb : Tok)
deriving DecidableEq, Repr

/-- A response payload: display text plus the inline-keyboard grid, each
button abbreviated to its `callback_data` token. -/
structure Msg where
  text : MsgText
  buttons : List (List Tok)
deriving DecidableEq, Repr

/-- `menu.py: cmd_main` (lines 136–152). -/
def cmd_main : Msg :=
  { text := .mainMenu
    buttons := [["m_create".toList, "m_my".toList],
                ["m_all".toList, "m_overdue".toList],
                ["m_stats".toList, "m_viz".toList]] }

/-- `menu.py: cmd_create_prompt` (lines 155–166). -/
def cmd_create_prompt : Msg :=
  { text := .createPrompt, buttons := [["m_main".toList]] }

/-- `ORDER BY CASE WHEN status='overdue' THEN 0 WHEN status='in_progress'
THEN 1 ELSE 2 END` of `cmd_my_tasks` / `cmd_all_tasks`. -/
def activeRank (s : Status) : Nat :=
  match s with
  | .overdue => 0
  | .in_progress => 1
  | _ => 2

/-- Sort key `(status rank, deadline IS NULL, deadline)` of the active-task
listings. -/
def taskOrderKey (t : Task) : Nat × Nat × Int :=
  (activeRank t.status,
   (match t.deadline with | none => 1 | some _ => 0),
   (match t.deadline with | none => 0 | some d => d.t))

/-- Strict lexicographic comparison of listing sort keys. -/
def keyLtb (a b : Nat × Nat × Int) : Bool :=
  a.1 < b.1 ∨ (a.1 = b.1 ∧ (a.2.1 < b.2.1 ∨ (a.2.1 = b.2.1 ∧ a.2.2 < b.2.2)))

/-- Stable insertion for `sortByKey` (ties keep table order; SQL leaves tie
order unspecified, the model fixes the stable one). -/
def insertByKey (key : Task → Nat × Nat × Int) (x : Task) :
    List Task → List Task
  | [] => [x]
  | y :: ys =>
    if keyLtb (key y) (key x) then y :: insertByKey key x ys else x :: y :: ys

/-- Stable ascending sort of a task listing by a key. -/
def sortByKey (key : Task → Nat × Nat × Int) : List Task → List Task
  | [] => []
  | x :: xs => insertByKey key x (sortByKey key xs)

/-- Rows of 4 task buttons
(`[task_buttons[i : i + 4] for i in range(0, len(task_buttons), 4)]`). -/
def chunksAux (n : Nat) : Nat → List Tok → List (List Tok)
  | 0, _ => []
  | _, [] => []
  | fuel + 1, l => l.take n :: chunksAux n fuel (l.drop n)

/-- Split a button list into rows of `n`. -/
def chunks (n : Nat) (l : List Tok) : List (List Tok) :=
  chunksAux n l.length l

/-- `"t_<id>"` callback for a task button. -/
def taskTok (taskId : Int) : Tok := "t_".toList ++ (toString taskId).toList

/-- `menu.py: cmd_my_tasks` (lines 169–219): the caller's active tasks in
the chat, ten at most. -/
def cmd_my_tasks (db : List Task) (target : Int) (userId : Int) : Msg :=
  let tasks := (sortByKey taskOrderKey (db.filter (fun t =>
    t.assigneeId = some userId ∧ t.chatId = target ∧
      (t.status = .todo ∨ t.status = .in_progress ∨ t.status = .overdue)))).take 10
  if tasks.isEmpty then
    { text := .myTasksEmpty
      buttons := [["m_create".toList], ["m_main".toList]] }
  else
    { text := .myTasksList (tasks.map (·.id))
      buttons := chunks 4 (tasks.map (fun t => taskTok t.id)) ++
        [["m_create".toList, "m_main".toList]] }

/-- `menu.py: cmd_all_tasks` (lines 222–268): all active tasks in the chat,
fifteen at most. -/
def cmd_all_tasks (db : List Task) (target : Int) : Msg :=
  let tasks := (sortByKey taskOrderKey (db.filter (fun t =>
    t.chatId = target ∧
      (t.status = .todo ∨ t.status = .in_progress ∨ t.status = .overdue)))).take 15
  if tasks.isEmpty then
    { text := .allTasksEmpty
      buttons := [["m_create".toList], ["m_main".toList]] }
  else
    { text := .allTasksList (tasks.map (·.id))
      buttons := chunks 4 (tasks.map (fun t => taskTok t.id)) ++
        [["m_create".toList, "m_main".toList]] }

/-- `menu.py: cmd_task_detail` (lines 271–327). -/
def cmd_task_detail (db : List Task) (taskId : Int) : Msg :=
  match findTask db taskId with
  | none =>
    { text := .taskNotFound taskId, buttons := [["m_main".toList]] }
  | some t =>
    if t.status = .todo ∨ t.status = .in_progress ∨ t.status = .overdue then
      let row1 :=
        (if t.status ≠ .in_progress then
          ["a_start_".toList ++ (toString t.id).toList] else []) ++
        ["a_done_".toList ++ (toString t.id).toList]
      let row2 :=
        (if t.deadline ≠ none then
          ["a_extend_".toList ++ (toString t.id).toList] else []) ++
        ["a_edit_".toList ++ (toString t.id).toList,
         "a_cancel_".toList ++ (toString t.id).toList]
      { text := .taskDetail taskId
        buttons := [row1, row2, ["m_my".toList, "m_main".toList]] }
    else
      { text := .taskDetail taskId
        buttons := [["m_my".toList, "m_main".toList]] }

/-- `menu.py: cmd_action` (lines 330–366): run `tasks.py done|start|cancel`
(that is, `update_status`), report errors with a menu button, otherwise
confirm (a plain toast without buttons, not the response payload) and
re-render the detail view on the updated table. -/
def cmd_action (db : List Task) (now : Int) (action : Status) (taskId : Int) :
    List Task × Msg :=
  let r := update_status db taskId action now
  match r.2 with
  | .notFound => (r.1, { text := .actionError, buttons := [["m_main".toList]] })
  | _ => (r.1, cmd_task_detail r.1 taskId)

/-- `menu.py: cmd_stats` (lines 369–409): statistics text (numbers rendered
from `tasks.py stats`, abstracted) with fixed navigation. -/
def cmd_stats : Msg :=
  { text := .statsView, buttons := [["m_viz".toList], ["m_main".toList]] }

/-- Selection of `tasks.py: get_overdue` (lines 444–474) with a chat filter:
deadline present and past, status still active or already overdue. -/
def getOverdueSel (now : Int) (chatId : Int) (t : Task) : Prop :=
  t.chatId = chatId ∧ (∃ d, t.deadline = some d ∧ d.t < now) ∧
    (t.status = .todo ∨ t.status = .in_progress ∨ t.status = .overdue)

instance (now chatId : Int) (t : Task) : Decidable (getOverdueSel now chatId t) := by
  unfold getOverdueSel
  infer_instance

/-- `menu.py: cmd_overdue` (lines 412–450): render `tasks.py overdue`
(`ORDER BY deadline ASC`). -/
def cmd_overdue (db : List Task) (target : Int) (now : Int) : Msg :=
  let tasks := sortByKey
    (fun t => (0, 0, match t.deadline with | none => 0 | some d => d.t))
    (db.filter (fun t => decide (getOverdueSel now target t)))
  if tasks.isEmpty then
    { text := .overdueEmpty, buttons := [["m_main".toList]] }
  else
    { text := .overdueList (tasks.map (·.id))
      buttons := chunks 4 (tasks.map (fun t => taskTok t.id)) ++
        [["m_main".toList]] }

/-- `menu.py: cmd_viz` (lines 453–466). -/
def cmd_viz : Msg :=
  { text := .vizMenu
    buttons := [["v_status".toList, "v_workload".toList],
                ["v_priority".toList, "v_trend".toList],
                ["m_main".toList]] }

/-- `menu.py: cmd_viz_chart` (lines 469–510): `v_dashboard` redirects to the
selection menu; otherwise the chart is produced by the external
`visualize.py` collaborator and every branch (success, generation error,
missing data) replies with the same `nav_buttons` grid. -/
def cmd_viz_chart (chart : Tok) : Msg :=
  if chart = "dashboard".toList then cmd_viz
  else
    { text := .chartResult chart
      buttons := [["m_viz".toList, "m_main".toList]] }

/-- The `(prefix, action)` table of the status-action loop in `cmd_route`
(line 552). -/
def actionTable : List (Tok × Status) :=
  [("a_done_".toList, .done), ("a_start_".toList, .in_progress),
   ("a_cancel_".toList, .cancelled)]

/-- The unknown-command fallback of `cmd_route` (lines 586–591). -/
def routeUnknown (db : List Task) (cb : Tok) : List Task × Msg :=
  (db, { text := .unknownCommand cb, buttons := [["m_main".toList]] })

/-- The tail of the `cmd_route` fall-through chain (lines 560–591):
`a_edit_<id>` / `a_extend_<id>` free-text prompts (no integer parsing),
`v_<chart>` delegation, then the unknown-command response. -/
def routePrompts (db : List Task) (cb : Tok) : List Task × Msg :=
  if startsWithTok "a_edit_".toList cb then
    let suffix := cb.drop 7
    (db, { text := .editPrompt suffix
           buttons := [["t_".toList ++ suffix, "m_main".toList]] })
  else if startsWithTok "a_extend_".toList cb then
    let suffix := cb.drop 9
    (db, { text := .extendPrompt suffix
           buttons := [["t_".toList ++ suffix, "m_main".toList]] })
  else if startsWithTok "v_".toList cb then
    (db, cmd_viz_chart (cb.drop 2))
  else
    routeUnknown db cb

/-- The status-action loop of `cmd_route` (lines 551–558): the first
`(prefix, action)` pair whose prefix matches and whose suffix parses as an
integer wins; a parse failure falls through (`except ValueError: pass`). -/
def routeActionStep (db : List Task) (target now : Int) (cb : Tok) :
    List Task × Msg :=
  match actionTable.findSome? (fun pa =>
      if startsWithTok pa.1 cb then
        (pyInt? (cb.drop pa.1.length)).map (cmd_action db now pa.2)
      else none) with
  | some r => r
  | none => routePrompts db cb

/-- The `t_<id>` step of `cmd_route` (lines 543–549): on a parse failure the
dispatch falls through to the action loop. -/
def routeTStep (db : List Task) (target now : Int) (cb : Tok) :
    List Task × Msg :=
  match (if startsWithTok "t_".toList cb then
      (pyInt? (cb.drop 2)).map (fun taskId => (db, cmd_task_detail db taskId))
    else none) with
  | some r => r
  | none => routeActionStep db target now cb

/-- `menu.py: cmd_route` (lines 516–591): the universal callback
dispatcher.  `now` is the clock instant of any `tasks.py` invocation the
dispatch performs.  Returns the (possibly updated) task table and the
response payload. -/
def cmd_route (db : List Task) (target : Int) (now : Int) (callbackData : Tok)
    (userId : Option Int) : List Task × Msg :=
  let cb := stripWs callbackData
  if cb = "m_main".toList then (db, cmd_main)
  else if cb = "m_create".toList then (db, cmd_create_prompt)
  else if cb = "m_my".toList then
    match userId with
    | none => (db, { text := .noUserId, buttons := [["m_main".toList]] })
    | some uid => (db, cmd_my_tasks db target uid)
  else if cb = "m_all".toList then (db, cmd_all_tasks db target)
  else if cb = "m_overdue".toList then (db, cmd_overdue db target now)
  else if cb = "m_stats".toList then (db, cmd_stats)
  else if cb = "m_viz".toList then (db, cmd_viz)
  else routeTStep db target now cb

/-! ## Status-transition traces (for the `completedAt` history invariant) -/

/-- A sequence of `update_status` calls against one task: each element is the
target status and the clock instant of the call. -/
def runStatusOps (db : List Task) (taskId : Int) (ops : List (Status × Int)) :
    List Task :=
  ops.foldl (fun d op => (update_status d taskId op.1 op.2).1) db

/-- Abstract effect of one `update_status` call on the
`(status, completedAt)` pair of the addressed task: a redundant call is a
no-op, a transition into `done` stamps `completedAt` with the call instant,
any other transition preserves it. -/
def statusCompletedStep (st : Status × Option Int) (op : Status × Int) :
    Status × Option Int :=
  if st.1 = op.1 then st
  else (op.1, if op.1 = .done then some op.2 else st.2)

/-- Whether a trace, started from the given status, contains an effective
transition into `done`. -/
def sawDoneTransition : Status → List (Status × Int) → Bool
  | _, [] => false
  | cur, op :: rest =>
    if cur = op.1 then sawDoneTransition cur rest
    else if op.1 = .done then true
    else sawDoneTransition op.1 rest

/-- Demo task used by concrete witnesses. -/
def demoTask : Task :=
  { id := 1, description := "write report", title := none, creatorId := 10,
    creatorUsername := some "alice", assigneeId := some 20,
    assigneeUsername := some "bob", chatId := 77,
    deadline := some ⟨1000, false⟩, priority := "medium", status := .todo,
    cronJobIds := [5], createdAt := 0, updatedAt := 0, completedAt := none }

/-- Demo task already in the terminal `done` state. -/
def demoDoneTask : Task :=
  { demoTask with id := 2, status := .done, completedAt := some 40 }

/-- The expected record after reopening `demoDoneTask`. -/
def demoReopenedTask : Task :=
  { demoDoneTask with status := .in_progress, updatedAt := 60 }

/-- Demo task stuck in `overdue`. -/
def demoOverdueTask : Task :=
  { demoTask with id := 3, status := .overdue }

/-- The expected record after extending `demoOverdueTask` to a past
deadline. -/
def demoExtendedTask : Task :=
  { demoOverdueTask with
    deadline := some ⟨500, false⟩
    status := .todo
    updatedAt := 2000 }

/-- An `overdue` task far older than the retention window. -/
def demoAncientOverdue : Task :=
  { demoTask with id := 4, status := .overdue, updatedAt := 0 }

/-- Demo registered user for the directory claims. -/
def demoUser : User :=
  { telegramId := 9, username := some "bob", firstName := some "Bob",
    lastName := none, displayName := some "Bobby", chatIds := [77],
    firstSeenAt := 0, lastSeenAt := 0 }

/-- Registered user with username `ivan_k` and no other name fields. -/
def ivanUser : User :=
  { telegramId := 42, username := some "ivan_k", firstName := none,
    lastName := none, displayName := none, chatIds := [77],
    firstSeenAt := 0, lastSeenAt := 0 }

/-- Task whose deadline is the system's own offset-naive ISO format. -/
def naiveDeadlineTask : Task :=
  { demoTask with id := 6, deadline := some { t := 100, aware := false } }

/-- `naiveDeadlineTask` after being flipped to `overdue` at instant 200. -/
def naiveDeadlineTaskAfter : Task :=
  { naiveDeadlineTask with status := .overdue, updatedAt := 200 }

end OpenTasker

open OpenTasker

/-! ## Helper lemmas -/

theorem findTask_id_eq {db : List Task} {i : Int} {t : Task}
    (h : findTask db i = some t) : t.id = i := by
  unfold findTask at h
  have := List.find?_some h
  simpa using this

theorem findTask_setTask {db : List Task} {i : Int} {t : Task} (u : Task)
    (hf : findTask db i = some t) (hu : u.id = i) :
    findTask (setTask db i u) i = some u := by
  induction db with
  | nil => simp [findTask] at hf
  | cons h tl ih =>
    by_cases hh : h.id = i
    · unfold findTask setTask
      rw [List.map_cons, if_pos hh]
      simp [List.find?, hu]
    · have hd : decide (h.id = i) = false := by simp [hh]
      have hf' : findTask tl i = some t := by
        unfold findTask at hf ⊢
        rw [List.find?] at hf
        rw [hd] at hf
        exact hf
      have h2 := ih hf'
      unfold findTask setTask at h2 ⊢
      rw [List.map_cons, if_neg hh, List.find?, hd]
      exact h2

/-- `update_status` on an existing task with a different target: explicit
result. -/
theorem update_status_changes {db : List Task} {taskId : Int} {t : Task}
    (s : Status) (now : Int) (hfind : findTask db taskId = some t)
    (hne : t.status ≠ s) :
    update_status db taskId s now =
      (setTask db taskId
        { t with
          status := s
          updatedAt := now
          completedAt := if s = .done then some now else t.completedAt },
       .ok { t with
             status := s
             updatedAt := now
             completedAt := if s = .done then some now else t.completedAt }
         t.status s
         (if s = .done ∨ s = .cancelled then some t.cronJobIds else none)) := by
  unfold update_status
  rw [hfind]
  dsimp only []
  rw [if_neg hne]

/-! ## C2 -/

/-- After a `check_overdue` run, no task of the resulting table satisfies the
newly-overdue selection for the same instant: every selected task was flipped
to `overdue` and every unselected task was left as it was (and unselected). -/
theorem check_overdue_filter_after (db : List Task) (chatId : Option Int)
    (now now2 : Int) :
    (check_overdue db chatId now now2).1.filter
      (fun t => decide (overdueSel now chatId t)) = [] := by
  unfold check_overdue
  dsimp only []
  by_cases hempty : (db.filter (fun t => decide (overdueSel now chatId t))).isEmpty
  · rw [if_pos hempty]
    exact List.isEmpty_iff.mp hempty
  · rw [if_neg hempty]
    apply List.filter_eq_nil_iff.mpr
    intro x hx
    rcases List.mem_map.mp hx with ⟨t, ht, rfl⟩
    by_cases hid :
        ((db.filter (fun t => decide (overdueSel now chatId t))).map (·.id)).contains t.id = true
    · simp only [hid, if_true]
      simp [overdueSel]
    · simp only [hid, if_false]
      simp only [decide_eq_true_eq]
      intro hsel
      apply hid
      have hmem : t ∈ db.filter (fun t => decide (overdueSel now chatId t)) := by
        simp only [List.mem_filter, decide_eq_true_eq]
        exact ⟨ht, hsel⟩
      have hmm : t.id ∈ (db.filter (fun t => decide (overdueSel now chatId t))).map (·.id) :=
        List.mem_map.mpr ⟨t, hmem, rfl⟩
      simpa using hmm

/-- A `check_overdue` run on a table where nothing satisfies the selection
changes nothing, selects nothing and notifies nothing. -/
theorem check_overdue_of_no_sel (db : List Task) (chatId : Option Int)
    (now now2 : Int)
    (h : db.filter (fun t => decide (overdueSel now chatId t)) = []) :
    check_overdue db chatId now now2 = (db, [], .ok []) := by
  unfold check_overdue
  dsimp only []
  rw [h]
  rfl

/-- C2: `check_overdue` is idempotent.  Every task it reports newly overdue
satisfies the selection (deadline in the past, status `todo`/`in_progress`) —
in particular none is already `overdue` — and an immediately repeated run at
the same instant, with no intervening mutation, leaves the table unchanged,
reports zero newly-overdue tasks, and emits no (duplicate) notifications. -/
theorem check_overdue_idempotent (db : List Task) (chatId : Option Int)
    (now now2 now2' : Int) :
    (∀ t ∈ (check_overdue db chatId now now2).2.1,
        overdueSel now chatId t ∧ t.status ≠ .overdue) ∧
    check_overdue (check_overdue db chatId now now2).1 chatId now now2' =
      ((check_overdue db chatId now now2).1, [], .ok []) := by
  constructor
  · intro t ht
    have ht' : t ∈ db.filter (fun t => decide (overdueSel now chatId t)) := ht
    have hsel : overdueSel now chatId t := by
      have := (List.mem_filter.mp ht').2
      exact of_decide_eq_true this
    refine ⟨hsel, ?_⟩
    rcases hsel with ⟨-, hstat, -⟩
    rcases hstat with h | h <;> simp [h]
  · exact check_overdue_of_no_sel _ chatId now now2'
      (check_overdue_filter_after db chatId now now2)

/-- Witness for C2 at a concrete table: one task with a past deadline is
selected on the first run and not `overdue` yet, and the second run reports
nothing. -/
theorem check_overdue_idempotent_witness :
    (demoTask.status ≠ .overdue) ∧
    check_overdue (check_overdue [demoTask] none 2000 2000).1 none 2000 2000 =
      ((check_overdue [demoTask] none 2000 2000).1, [], .ok []) := by
  have h := check_overdue_idempotent [demoTask] none 2000 2000 2000
  exact ⟨(h.1 demoTask (by decide)).2, h.2⟩

/-! ## C1 -/

/-- The `completedAt` component of the abstract trace fold is non-null iff it
started non-null or some effective transition into `done` occurred. -/
theorem foldCompleted_ne_none_iff (ops : List (Status × Int)) (cur : Status)
    (c : Option Int) :
    ((ops.foldl statusCompletedStep (cur, c)).2 ≠ none) ↔
      (c ≠ none ∨ sawDoneTransition cur ops = true) := by
  induction ops generalizing cur c with
  | nil => simp [sawDoneTransition]
  | cons op rest ih =>
    rw [List.foldl_cons]
    by_cases h1 : cur = op.1
    · rw [show statusCompletedStep (cur, c) op = (cur, c) by
        simp [statusCompletedStep, h1]]
      rw [show sawDoneTransition cur (op :: rest) = sawDoneTransition cur rest by
        simp [sawDoneTransition, h1]]
      exact ih cur c
    · by_cases h2 : op.1 = .done
      · rw [show statusCompletedStep (cur, c) op = (op.1, some op.2) by
          unfold statusCompletedStep
          rw [if_neg h1, if_pos h2]]
        rw [show sawDoneTransition cur (op :: rest) = true by
          unfold sawDoneTransition
          rw [if_neg h1, if_pos h2]]
        rw [ih]
        simp
      · rw [show statusCompletedStep (cur, c) op = (op.1, c) by
          unfold statusCompletedStep
          rw [if_neg h1, if_neg h2]]
        rw [show sawDoneTransition cur (op :: rest) = sawDoneTransition op.1 rest by
          conv_lhs => unfold sawDoneTransition
          rw [if_neg h1, if_neg h2]]
        exact ih op.1 c

/-- C1 (amended): over every transition trace, the addressed task stays
present, and its `(status, completedAt)` pair is the fold of the abstract
step: `completedAt` is stamped with the call instant on every effective
transition into `done` (overwritten on re-entry), preserved — never
cleared — by every other transition; consequently, starting from a null
`completedAt`, it ends non-null iff the trace contains an effective
transition into `done`. -/
theorem completedAt_trace_characterization (db : List Task) (taskId : Int)
    (ops : List (Status × Int)) (t0 : Task)
    (hfind : findTask db taskId = some t0) :
    ∃ t', findTask (runStatusOps db taskId ops) taskId = some t' ∧
      (t'.status, t'.completedAt) =
        ops.foldl statusCompletedStep (t0.status, t0.completedAt) ∧
      (t0.completedAt = none →
        (t'.completedAt ≠ none ↔ sawDoneTransition t0.status ops = true)) := by
  induction ops generalizing db t0 with
  | nil =>
    refine ⟨t0, by simpa [runStatusOps] using hfind, by simp, ?_⟩
    intro h0
    rw [h0]
    simp [sawDoneTransition]
  | cons op rest ih =>
    have hstep : runStatusOps db taskId (op :: rest) =
        runStatusOps (update_status db taskId op.1 op.2).1 taskId rest := by
      simp [runStatusOps]
    by_cases h1 : t0.status = op.1
    · have hdb : (update_status db taskId op.1 op.2).1 = db := by
        unfold update_status
        rw [hfind]
        simp [h1]
      obtain ⟨t', hf', hpair, hiff⟩ := ih db t0 hfind
      refine ⟨t', by rw [hstep, hdb]; exact hf', ?_, ?_⟩
      · rw [hpair, List.foldl_cons,
          show statusCompletedStep (t0.status, t0.completedAt) op =
            (t0.status, t0.completedAt) by simp [statusCompletedStep, h1]]
      · intro h0
        rw [show sawDoneTransition t0.status (op :: rest) =
            sawDoneTransition t0.status rest by simp [sawDoneTransition, h1]]
        exact hiff h0
    · have hch := update_status_changes op.1 op.2 hfind h1
      have hid0 : t0.id = taskId := findTask_id_eq hfind
      have hf1 : findTask (update_status db taskId op.1 op.2).1 taskId =
          some { t0 with
                 status := op.1
                 updatedAt := op.2
                 completedAt := if op.1 = .done then some op.2 else t0.completedAt } := by
        rw [hch]
        exact findTask_setTask _ hfind hid0
      obtain ⟨t', hf', hpair, -⟩ := ih _ _ hf1
      have hfold : (t'.status, t'.completedAt) =
          (op :: rest).foldl statusCompletedStep (t0.status, t0.completedAt) := by
        rw [List.foldl_cons,
          show statusCompletedStep (t0.status, t0.completedAt) op =
            (op.1, if op.1 = .done then some op.2 else t0.completedAt) by
              simp [statusCompletedStep, h1]]
        simpa using hpair
      refine ⟨t', by rw [hstep]; exact hf', hfold, ?_⟩
      intro h0
      have hcomp : t'.completedAt =
          ((op :: rest).foldl statusCompletedStep (t0.status, t0.completedAt)).2 := by
        rw [← hfold]
      rw [hcomp, foldCompleted_ne_none_iff]
      rw [h0]
      simp

/-- Counterexample to C1 as stated: in the trace
`done@1, todo@2, done@3` the task re-enters `done`, and `completedAt` —
already set to `1` by the first transition into `done` — is set a second
time, to `3`: "set exactly once" fails on the code. -/
theorem completedAt_set_twice_counterexample :
    (findTask (runStatusOps [demoTask] 1 [(.done, 1)]) 1).map Task.completedAt =
        some (some 1) ∧
    (findTask (runStatusOps [demoTask] 1
        [(.done, 1), (.todo, 2), (.done, 3)]) 1).map Task.completedAt =
      some (some 3) := by
  decide

/-- Witness for the amended C1 theorem: applying it to the one-step trace
`done@5` on the demo task yields the task in `done` with
`completedAt = some 5`. -/
theorem completedAt_trace_characterization_witness :
    ∃ t', findTask (runStatusOps [demoTask] 1 [(.done, 5)]) 1 = some t' ∧
      (t'.status, t'.completedAt) = (Status.done, some 5) := by
  obtain ⟨t', hf', hpair, -⟩ :=
    completedAt_trace_characterization [demoTask] 1 [(.done, 5)] demoTask (by decide)
  refine ⟨t', hf', ?_⟩
  rw [hpair]
  decide

/-! ## C5 -/

/-- Counterexample to C5 as stated: an incoming *empty* username does not
leave the stored field unchanged — SQL `COALESCE('', username)` is the empty
string, so the sighting overwrites `"bob"` with `""`. -/
theorem upsert_empty_overwrites_counterexample :
    ((upsert_user [demoUser] 9 (some "") none none none 50).2).username = some "" ∧
      demoUser.username = some "bob" := by
  decide

/-- C5 (amended): on an upsert sighting of a registered user, each of
`username`, `firstName`, `lastName` is overwritten exactly when the incoming
value is present (non-null, `COALESCE`) — an absent value leaves the stored
field unchanged, but a present empty string does overwrite; `displayName` is
never modified by upsert; `lastSeenAt` is always set to the sighting instant
and `firstSeenAt` is preserved. -/
theorem upsert_merge_by_presence (udb : List User) (telegramId : Int)
    (un fn ln : Option String) (chat : Option Int) (now : Int) (u : User)
    (hfind : findUser udb telegramId = some u) :
    ((upsert_user udb telegramId un fn ln chat now).2).username =
        coalesce un u.username ∧
    ((upsert_user udb telegramId un fn ln chat now).2).firstName =
        coalesce fn u.firstName ∧
    ((upsert_user udb telegramId un fn ln chat now).2).lastName =
        coalesce ln u.lastName ∧
    ((upsert_user udb telegramId un fn ln chat now).2).displayName =
        u.displayName ∧
    ((upsert_user udb telegramId un fn ln chat now).2).lastSeenAt = now ∧
    ((upsert_user udb telegramId un fn ln chat now).2).firstSeenAt =
        u.firstSeenAt ∧
    (un = none → ((upsert_user udb telegramId un fn ln chat now).2).username =
        u.username) := by
  unfold upsert_user
  rw [hfind]
  refine ⟨rfl, rfl, rfl, rfl, rfl, rfl, ?_⟩
  intro h
  rw [h]
  rfl

/-- Witness for the amended C5 theorem: an absent username and a present
first name on a sighting of the demo user. -/
theorem upsert_merge_by_presence_witness :
    ((upsert_user [demoUser] 9 none (some "Robert") none none 50).2).username =
        coalesce none demoUser.username ∧
    ((upsert_user [demoUser] 9 none (some "Robert") none none 50).2).firstName =
        coalesce (some "Robert") demoUser.firstName ∧
    ((upsert_user [demoUser] 9 none (some "Robert") none none 50).2).displayName =
        demoUser.displayName ∧
    ((upsert_user [demoUser] 9 none (some "Robert") none none 50).2).lastSeenAt = 50 := by
  have h := upsert_merge_by_presence [demoUser] 9 none (some "Robert") none none 50
    demoUser (by decide)
  exact ⟨h.1, h.2.1, h.2.2.2.1, h.2.2.2.2.1⟩

/-! ## C4 -/

/-- C4 fails on the code: evaluating `check_overdue` on a task whose past
deadline is stored in the system's own offset-naive `now_iso` format selects
the task and commits the `overdue` status update, but the notification loop
then raises `TypeError` (`datetime.now(UTC) - naive`), so no notification
record is produced.  (`standup.py: hours_overdue` wraps the identical
computation in `except (ValueError, TypeError)`.) -/
theorem check_overdue_notification_raises_on_naive_deadline :
    check_overdue [naiveDeadlineTask] none 200 201 =
      ([naiveDeadlineTaskAfter], [naiveDeadlineTask], .error .typeError) := by
  rfl

/-! ## C6 -/

set_option maxRecDepth 100000 in
/-- C6: the resolver contract.  (i) An exact case-insensitive username match
returns `EXACT_MATCH` immediately whenever no scope filter applies or the
user's chat set contains the scope.  (ii) When the exact step does not fire
and every fuzzy candidate scores below the 0.6 threshold, all candidates are
discarded and the result is `NOT_FOUND`.  (iii) For a registered user with
username `ivan_k`, querying `"ivan_k"` yields `EXACT_MATCH`, and
(iv) querying `"Ivan"` yields `SUGGESTIONS` containing that user with score
`0.8 ≥ 0.6`. -/
theorem resolver_contract :
    (∀ (udb : List User) (q : List Char) (chat : Option Int) (u : User),
        findExact udb (normQuery q) = some u →
        (chat = none ∨ ∃ c, chat = some c ∧ c ∈ u.chatIds) →
        search_user udb q chat = .exactMatch u) ∧
    (∀ (udb : List User) (q : List Char) (chat : Option Int),
        exactLookup udb (normQuery q) chat = none →
        (∀ u ∈ fuzzyCandidates udb chat, bestScore (normQuery q) u < fuzzyThreshold) →
        search_user udb q chat = .notFound) ∧
    search_user [ivanUser] "ivan_k".toList none = .exactMatch ivanUser ∧
    search_user [ivanUser] "Ivan".toList none =
      .suggestions [(ivanUser, 4 / 5)] ∧
    (4 / 5 : ℚ) ≥ fuzzyThreshold := by
  have hexact : ∀ (udb : List User) (q : List Char) (chat : Option Int) (u : User),
      findExact udb (normQuery q) = some u →
      (chat = none ∨ ∃ c, chat = some c ∧ c ∈ u.chatIds) →
      search_user udb q chat = .exactMatch u := by
    intro udb q chat u hf hscope
    unfold search_user
    rw [show exactLookup udb (normQuery q) chat = some (.exactMatch u) by
      unfold exactLookup
      rw [hf]
      dsimp only []
      rw [if_pos hscope]]
  have hnotfound : ∀ (udb : List User) (q : List Char) (chat : Option Int),
      exactLookup udb (normQuery q) chat = none →
      (∀ u ∈ fuzzyCandidates udb chat, bestScore (normQuery q) u < fuzzyThreshold) →
      search_user udb q chat = .notFound := by
    intro udb q chat hnone hlow
    unfold search_user
    rw [hnone]
    dsimp only []
    by_cases hemp : (fuzzyCandidates udb chat).isEmpty
    · rw [if_pos hemp]
    · rw [if_neg hemp]
      have hnil : ((fuzzyCandidates udb chat).filterMap (fun u =>
          if bestScore (normQuery q) u ≥ fuzzyThreshold then
            some (bestScore (normQuery q) u, u)
          else none)) = [] := by
        apply List.filterMap_eq_nil_iff.mpr
        intro u hu
        rw [if_neg (not_le.mpr (hlow u hu))]
      rw [hnil]
      rfl
  have hm : matchTotal "ivan".toList "ivan_k".toList = 4 := by decide
  have hr : seqRatio "ivan".toList "ivan_k".toList = 4 / 5 := by
    have hl1 : ("ivan".toList).length = 4 := by decide
    have hl2 : ("ivan_k".toList).length = 6 := by decide
    unfold seqRatio
    rw [hm, hl1, hl2]
    norm_num
  have hb : bestScore "ivan".toList ivanUser = 4 / 5 := by
    unfold bestScore
    rw [show userCandidates ivanUser = ["ivan_k".toList] by decide]
    rw [List.foldl_cons, List.foldl_nil, hr]
    rw [max_eq_right (by norm_num : (0 : ℚ) ≤ 4 / 5)]
  have hsugg : search_user [ivanUser] "Ivan".toList none =
      .suggestions [(ivanUser, 4 / 5)] := by
    unfold search_user
    rw [show normQuery "Ivan".toList = "ivan".toList by decide]
    rw [show exactLookup [ivanUser] "ivan".toList none = none by decide]
    dsimp only []
    rw [show fuzzyCandidates [ivanUser] none = [ivanUser] from rfl]
    rw [if_neg (by decide : ¬ ([ivanUser].isEmpty = true))]
    rw [List.filterMap_cons, List.filterMap_nil]
    rw [hb]
    rw [if_pos (by norm_num [fuzzyThreshold] : (4 / 5 : ℚ) ≥ fuzzyThreshold)]
    rw [show sortByScoreDesc [((4 : ℚ) / 5, ivanUser)] = [((4 : ℚ) / 5, ivanUser)] from rfl]
    dsimp only []
    rw [if_neg (by norm_num : ¬ ((4 / 5 : ℚ) ≥ 95 / 100))]
    rfl
  refine ⟨hexact, hnotfound, ?_, hsugg, by norm_num [fuzzyThreshold]⟩
  exact hexact [ivanUser] "ivan_k".toList none ivanUser (by decide) (Or.inl rfl)

/-- Witness for C6's quantified conjuncts at concrete inputs: an exact hit
with a scope filter the user's chats contain, and an all-below-threshold
query yielding `NOT_FOUND`. -/
theorem resolver_contract_witness :
    search_user [ivanUser] "IVAN_K".toList (some 77) = .exactMatch ivanUser ∧
    search_user [ivanUser] "@".toList none = .notFound := by
  have h := resolver_contract
  constructor
  · exact h.1 [ivanUser] "IVAN_K".toList (some 77) ivanUser (by decide)
      (Or.inr ⟨77, rfl, by decide⟩)
  · apply h.2.1 [ivanUser] "@".toList none (by decide)
    intro u hu
    have hu' : u = ivanUser := by
      have : u ∈ [ivanUser] := hu
      simpa using this
    subst hu'
    rw [show normQuery "@".toList = [] by decide]
    rw [show bestScore [] ivanUser = 0 by
      unfold bestScore
      rw [show userCandidates ivanUser = ["ivan_k".toList] by decide]
      rw [List.foldl_cons, List.foldl_nil]
      rw [show seqRatio [] "ivan_k".toList = 0 by
        unfold seqRatio
        rw [show matchTotal [] "ivan_k".toList = 0 by decide]
        norm_num]
      simp]
    norm_num [fuzzyThreshold]

/-! ## C7 -/

theorem mainTok_mem_last_row (rows : List (List Tok)) (row : List Tok)
    (h : "m_main".toList ∈ row) : "m_main".toList ∈ (rows ++ [row]).join :=
  List.mem_join.mpr ⟨row, by simp, h⟩

theorem nav_cmd_my_tasks (db : List Task) (target userId : Int) :
    "m_main".toList ∈ (cmd_my_tasks db target userId).buttons.join := by
  unfold cmd_my_tasks
  dsimp only []
  split
  · decide
  · exact mainTok_mem_last_row _ _ (by decide)

theorem nav_cmd_all_tasks (db : List Task) (target : Int) :
    "m_main".toList ∈ (cmd_all_tasks db target).buttons.join := by
  unfold cmd_all_tasks
  dsimp only []
  split
  · decide
  · exact mainTok_mem_last_row _ _ (by decide)

theorem nav_cmd_overdue (db : List Task) (target now : Int) :
    "m_main".toList ∈ (cmd_overdue db target now).buttons.join := by
  unfold cmd_overdue
  dsimp only []
  split
  · decide
  · exact mainTok_mem_last_row _ _ (by decide)

theorem nav_cmd_task_detail (db : List Task) (taskId : Int) :
    "m_main".toList ∈ (cmd_task_detail db taskId).buttons.join := by
  unfold cmd_task_detail
  split
  · simp
  · split
    · exact List.mem_join.mpr ⟨["m_my".toList, "m_main".toList], by simp, by decide⟩
    · simp

theorem nav_cmd_action (db : List Task) (now : Int) (action : Status)
    (taskId : Int) :
    "m_main".toList ∈ (cmd_action db now action taskId).2.buttons.join := by
  unfold cmd_action
  dsimp only []
  split
  · simp
  · exact nav_cmd_task_detail _ taskId

theorem nav_cmd_viz_chart (chart : Tok) :
    "m_main".toList ∈ (cmd_viz_chart chart).buttons.join := by
  unfold cmd_viz_chart
  split
  · decide
  · simp

theorem findSome?_actionTable {α : Type} (f : Tok × Status → Option α) :
    actionTable.findSome? f =
      (match f ("a_done_".toList, .done) with
       | some b => some b
       | none =>
         match f ("a_start_".toList, .in_progress) with
         | some b => some b
         | none =>
           match f ("a_cancel_".toList, .cancelled) with
           | some b => some b
           | none => none) := rfl

theorem nav_routePrompts (db : List Task) (cb : Tok) :
    "m_main".toList ∈ (routePrompts db cb).2.buttons.join := by
  unfold routePrompts routeUnknown
  dsimp only []
  split
  · simp
  · split
    · simp
    · split
      · exact nav_cmd_viz_chart _
      · simp

theorem nav_routeActionStep (db : List Task) (target now : Int) (cb : Tok) :
    "m_main".toList ∈ (routeActionStep db target now cb).2.buttons.join := by
  unfold routeActionStep
  split
  · rename_i r heq
    rw [findSome?_actionTable] at heq
    split at heq
    · rename_i b heq1
      split at heq1
      · rcases Option.map_eq_some'.mp heq1 with ⟨i, hpi, hr⟩
        cases heq
        subst hr
        exact nav_cmd_action db now _ i
      · exact Option.noConfusion heq1
    · split at heq
      · rename_i b heq1
        split at heq1
        · rcases Option.map_eq_some'.mp heq1 with ⟨i, hpi, hr⟩
          cases heq
          subst hr
          exact nav_cmd_action db now _ i
        · exact Option.noConfusion heq1
      · split at heq
        · rename_i b heq1
          split at heq1
          · rcases Option.map_eq_some'.mp heq1 with ⟨i, hpi, hr⟩
            cases heq
            subst hr
            exact nav_cmd_action db now _ i
          · exact Option.noConfusion heq1
        · exact Option.noConfusion heq
  · exact nav_routePrompts db cb

theorem nav_routeTStep (db : List Task) (target now : Int) (cb : Tok) :
    "m_main".toList ∈ (routeTStep db target now cb).2.buttons.join := by
  unfold routeTStep
  split
  · rename_i r heq
    split at heq
    · rcases Option.map_eq_some'.mp heq with ⟨i, hpi, hr⟩
      subst hr
      exact nav_cmd_task_detail db i
    · exact Option.noConfusion heq
  · exact nav_routeActionStep db target now cb

/-- Counterexample to C7 as stated: the router's response to the `m_main`
token is the main-menu view itself, whose button grid does not contain an
`m_main` navigation option — so not literally every response carries a
navigation option back to the main view. -/
theorem route_main_no_main_button_counterexample :
    (cmd_route [] 0 0 "m_main".toList none).2 = cmd_main ∧
      "m_main".toList ∉ cmd_main.buttons.join := by
  exact ⟨rfl, by decide⟩

/-- C7 (amended): the router dispatch is total.  (i) A `t_` token whose
suffix is not a Python integer falls through to the unknown-command
response; (ii) so does an `a_done_` token with a malformed suffix;
(iii) `t_999` against a table with no task 999 yields the not-found response
with a main-menu option; (iv) every response carries a navigation option
back to the main view, except the main-menu view itself, which is the main
view. -/
theorem router_recoverable (db : List Task) (target now : Int)
    (uid : Option Int) :
    (∀ rest : Tok, stripWs ("t_".toList ++ rest) = "t_".toList ++ rest →
      pyInt? rest = none →
      cmd_route db target now ("t_".toList ++ rest) uid =
        (db, { text := .unknownCommand ("t_".toList ++ rest),
               buttons := [["m_main".toList]] })) ∧
    (∀ rest : Tok, stripWs ("a_done_".toList ++ rest) = "a_done_".toList ++ rest →
      pyInt? rest = none →
      cmd_route db target now ("a_done_".toList ++ rest) uid =
        (db, { text := .unknownCommand ("a_done_".toList ++ rest),
               buttons := [["m_main".toList]] })) ∧
    (findTask db 999 = none →
      cmd_route db target now "t_999".toList uid =
        (db, { text := .taskNotFound 999, buttons := [["m_main".toList]] })) ∧
    (∀ cb : Tok,
      (cmd_route db target now cb uid).2.text = .mainMenu ∨
      "m_main".toList ∈ (cmd_route db target now cb uid).2.buttons.join) := by
  refine ⟨?_, ?_, ?_, ?_⟩
  · intro rest hw hp
    unfold cmd_route
    dsimp only []
    rw [hw]
    rw [show ("t_".toList ++ rest) = 't' :: '_' :: rest from rfl]
    unfold routeTStep
    rw [show List.drop 2 ('t' :: '_' :: rest) = rest from rfl]
    rw [hp]
    rfl
  · intro rest hw hp
    unfold cmd_route
    dsimp only []
    rw [hw]
    rw [show ("a_done_".toList ++ rest) =
      'a' :: '_' :: 'd' :: 'o' :: 'n' :: 'e' :: '_' :: rest from rfl]
    unfold routeTStep routeActionStep
    simp only [actionTable, List.findSome?]
    rw [show List.drop (List.length "a_done_".toList)
      ('a' :: '_' :: 'd' :: 'o' :: 'n' :: 'e' :: '_' :: rest) = rest from rfl]
    rw [hp]
    rfl
  · intro hf
    have h1 : cmd_route db target now "t_999".toList uid =
        (db, cmd_task_detail db 999) := rfl
    rw [h1]
    unfold cmd_task_detail
    rw [hf]
  · intro cb
    unfold cmd_route
    dsimp only []
    split
    · exact Or.inl rfl
    split
    · exact Or.inr (show "m_main".toList ∈ cmd_create_prompt.buttons.join by decide)
    split
    · split
      · exact Or.inr (show "m_main".toList ∈
          (Msg.mk .noUserId [["m_main".toList]]).buttons.join by decide)
      · exact Or.inr (nav_cmd_my_tasks db target _)
    split
    · exact Or.inr (nav_cmd_all_tasks db target)
    split
    · exact Or.inr (nav_cmd_overdue db target now)
    split
    · exact Or.inr (show "m_main".toList ∈ cmd_stats.buttons.join by decide)
    split
    · exact Or.inr (show "m_main".toList ∈ cmd_viz.buttons.join by decide)
    exact Or.inr (nav_routeTStep db target now _)

/-- Witness for the amended C7 theorem at concrete inputs: the malformed
token `t_abc` produces the unknown-command response, and `t_999` on an empty
table produces the not-found response, both with a main-menu option. -/
theorem router_recoverable_witness :
    cmd_route [] 0 0 "t_abc".toList none =
      ([], { text := .unknownCommand "t_abc".toList,
             buttons := [["m_main".toList]] }) ∧
    cmd_route [] 0 0 "t_999".toList none =
      ([], { text := .taskNotFound 999, buttons := [["m_main".toList]] }) := by
  have h := router_recoverable [] 0 0 none
  exact ⟨h.1 "abc".toList (by decide) (by decide), h.2.2.1 (by decide)⟩


/-! ## C8 -/

/-- C8: calling `update_status` with the status the task already has is a
no-op: it returns the unchanged record together with the informational
"already has status" message, leaves the table (hence `updatedAt`)
untouched, and is not an error. -/
theorem changeStatus_same_status_noop (db : List Task) (taskId : Int)
    (s : Status) (now : Int) (t : Task) (hfind : findTask db taskId = some t)
    (hst : t.status = s) :
    update_status db taskId s now = (db, .alreadyHasStatus t) := by
  unfold update_status
  rw [hfind]
  simp [hst]

/-- Witness for C8 at a concrete table. -/
theorem changeStatus_same_status_noop_witness :
    update_status [demoTask] 1 .todo 50 = ([demoTask], .alreadyHasStatus demoTask) :=
  changeStatus_same_status_noop [demoTask] 1 .todo 50 demoTask (by decide) (by decide)

/-! ## C10 -/

/-- C10: `update_status` applies no transition-table guard: for every
existing task and every target status different from the current one —
including transitions out of `done` or `cancelled` — the transition is
applied and reported `ok`, with the cron hand-off exactly on entering
`done`/`cancelled`. -/
theorem update_status_no_guard (db : List Task) (taskId : Int) (s : Status)
    (now : Int) (t : Task) (hfind : findTask db taskId = some t)
    (hne : t.status ≠ s) :
    update_status db taskId s now =
      (setTask db taskId
        { t with
          status := s
          updatedAt := now
          completedAt := if s = .done then some now else t.completedAt },
       .ok { t with
             status := s
             updatedAt := now
             completedAt := if s = .done then some now else t.completedAt }
         t.status s
         (if s = .done ∨ s = .cancelled then some t.cronJobIds else none)) :=
  update_status_changes s now hfind hne

/-- Witness for C10: a `done` task is moved back to `in_progress` through
the public operation and reported `ok`. -/
theorem update_status_no_guard_witness :
    update_status [demoDoneTask] 2 .in_progress 60 =
      ([demoReopenedTask], .ok demoReopenedTask .done .in_progress none) := by
  have h := update_status_no_guard [demoDoneTask] 2 .in_progress 60 demoDoneTask
    (by decide) (by decide)
  rw [h]
  decide

/-! ## C3 -/

/-- C3: `extend_deadline` on an existing task currently `overdue` always
yields status `todo`, for every new deadline value (also one already in the
past); the deadline is replaced, and the result reports the old deadline,
the new deadline and the prior scheduled cron-job references. -/
theorem extend_deadline_overdue_reverts_to_todo (db : List Task) (taskId : Int)
    (newD : IsoTime) (now : Int) (t : Task) (hfind : findTask db taskId = some t)
    (hov : t.status = .overdue) :
    extend_deadline db taskId newD now =
      (setTask db taskId
        { t with deadline := some newD, status := .todo, updatedAt := now },
       .ok { t with deadline := some newD, status := .todo, updatedAt := now }
         t.deadline newD t.cronJobIds) := by
  unfold extend_deadline
  rw [hfind]
  simp [hov]

/-- Witness for C3 with a new deadline that is already in the past
(`500 < now = 2000`): the task still reverts to `todo`. -/
theorem extend_deadline_overdue_reverts_to_todo_witness :
    extend_deadline [demoOverdueTask] 3 ⟨500, false⟩ 2000 =
      ([demoExtendedTask],
       .ok demoExtendedTask (some ⟨1000, false⟩) ⟨500, false⟩ [5]) := by
  have h := extend_deadline_overdue_reverts_to_todo [demoOverdueTask] 3
    ⟨500, false⟩ 2000 demoOverdueTask (by decide) (by decide)
  rw [h]
  decide

/-! ## C9 -/

/-- C9: the archival sweep deletes exactly the tasks of the chat whose
status is `done` or `cancelled` and whose last update is older than the
14-day retention cutoff, and (second conjunct) never removes a task whose
status is `todo`, `in_progress` or `overdue`, however old; every
non-matching record survives unchanged (the table is the filter of the
original). -/
theorem weeklyArchive_only_old_terminal (db : List Task) (chatId : Int)
    (archive : Bool) (now : Int) :
    (weeklyArchive db chatId archive now).1 =
      (if archive then
        db.filter (fun t => !decide (archiveSel chatId (retentionCutoff now) t))
      else db) ∧
    ∀ t ∈ db, (t.status = .todo ∨ t.status = .in_progress ∨ t.status = .overdue) →
      t ∈ (weeklyArchive db chatId archive now).1 := by
  have key : (weeklyArchive db chatId archive now).1 =
      (if archive then
        db.filter (fun t => !decide (archiveSel chatId (retentionCutoff now) t))
      else db) := by
    unfold weeklyArchive
    by_cases ha : archive
    · simp only [ha, if_true]
      by_cases hc :
          (db.filter (fun t => decide (archiveSel chatId (retentionCutoff now) t))).length > 0
      · simp [hc]
      · have hnil :
            db.filter (fun t => decide (archiveSel chatId (retentionCutoff now) t)) = [] := by
          simpa using Nat.eq_zero_of_not_pos hc
        have hall : ∀ t ∈ db, ¬ archiveSel chatId (retentionCutoff now) t := by
          intro t ht hsel
          have hmem : t ∈
              db.filter (fun t => decide (archiveSel chatId (retentionCutoff now) t)) := by
            simp only [List.mem_filter, decide_eq_true_eq]
            exact ⟨ht, hsel⟩
          rw [hnil] at hmem
          simp at hmem
        have hself :
            db.filter (fun t => !decide (archiveSel chatId (retentionCutoff now) t)) = db := by
          apply List.filter_eq_self.mpr
          intro t ht
          simp [hall t ht]
        simp [hc, hself]
    · simp [ha]
  refine ⟨key, ?_⟩
  intro t ht hactive
  have hnot : ¬ archiveSel chatId (retentionCutoff now) t := by
    intro hsel
    rcases hsel with ⟨-, hstat, -⟩
    rcases hactive with h | h | h <;> rcases hstat with h' | h' <;>
      rw [h] at h' <;> exact Status.noConfusion h'
  rw [key]
  by_cases ha : archive
  · simp only [ha, if_true, List.mem_filter]
    exact ⟨ht, by simp [hnot]⟩
  · simpa [ha] using ht

/-- Witness for C9: with `--archive` set and `now` far beyond the window,
the ancient `overdue` task survives the sweep. -/
theorem weeklyArchive_only_old_terminal_witness :
    demoAncientOverdue ∈ (weeklyArchive [demoAncientOverdue] 77 true 10000000).1 :=
  (weeklyArchive_only_old_terminal [demoAncientOverdue] 77 true 10000000).2
    demoAncientOverdue (by decide) (by decide)
